import Mathlib

/-!
Verification of the libczirw-sys binding layer.

The Rust sources under src/ are shallowly embedded below:
pure functions (misc.rs) become Lean functions; FFI wrappers (functions.rs)
become functions over explicit models of the native call results, with the
sequence of native calls a code path performs recorded as an explicit trace;
behaviour of the native engine itself (which is not part of this crate) is
modelled from the specification where a claim depends on it, and each such
definition is marked in its doc comment.
-/

namespace Czi

/-! ## misc.rs: the error type and its decoding -/

/-- The error enum of misc.rs (`LibCZIApiError`), one constructor per source
variant. -/
inductive LibCZIApiError where
  | OK
  | InvalidArgument
  | InvalidHandle
  | OutOfMemory
  | IndexOutOfRange
  | LockUnlockSemanticViolated
  | UnspecifiedError
deriving DecidableEq, Repr, Fintype

/-- The `anyhow::Error` values produced by the fallible conversions in misc.rs:
either a wrapped `LibCZIApiError`, or the message built for an unrecognised
error code or dimension value (the code is kept instead of the message text). -/
inductive AnyhowError where
  | api (e : LibCZIApiError)
  | unknownErrorCode (code : Int)
  | unknownDimension (value : Int)
deriving DecidableEq, Repr

/-- `impl TryFrom<c_int> for LibCZIApiError` (misc.rs lines 20-35): code 0 maps
to `Ok(OK)`, the known nonzero codes map to `Err` of the matching variant, any
other code maps to the unknown-code error. -/
def LibCZIApiError.try_from (code : Int) : Except AnyhowError LibCZIApiError :=
  if code = 0 then .ok .OK
  else if code = 1 then .error (.api .InvalidArgument)
  else if code = 2 then .error (.api .InvalidHandle)
  else if code = 3 then .error (.api .OutOfMemory)
  else if code = 4 then .error (.api .IndexOutOfRange)
  else if code = 20 then .error (.api .LockUnlockSemanticViolated)
  else if code = 50 then .error (.api .UnspecifiedError)
  else .error (.unknownErrorCode code)

/-- The error taxonomy exactly as section 7 of the specification lists it. -/
inductive SpecErrorKind where
  | InvalidArgument
  | InvalidHandle
  | OutOfMemory
  | IndexOutOfRange
  | LockUnlockSemanticViolated
  | CorruptData
  | Truncated
  | UnspecifiedError
deriving DecidableEq, Repr, Fintype

/-- Which kind of the specification's taxonomy each variant of the binding's
error enum denotes, matching the names verbatim; `OK` is not an error and
denotes no kind. -/
def LibCZIApiError.specKind : LibCZIApiError → Option SpecErrorKind
  | .OK => none
  | .InvalidArgument => some .InvalidArgument
  | .InvalidHandle => some .InvalidHandle
  | .OutOfMemory => some .OutOfMemory
  | .IndexOutOfRange => some .IndexOutOfRange
  | .LockUnlockSemanticViolated => some .LockUnlockSemanticViolated
  | .UnspecifiedError => some .UnspecifiedError

/-! ## misc.rs: dimensions and the bitflags decoding -/

/-- The `Dimension` enum of misc.rs, discriminant values 1 (Z) through 9 (B). -/
inductive Dimension where
  | Z
  | C
  | T
  | R
  | S
  | I
  | H
  | V
  | B
deriving DecidableEq, Repr

/-- `impl TryFrom<i32> for Dimension` (misc.rs lines 79-96). -/
def Dimension.try_from (dimension : Int) : Except AnyhowError Dimension :=
  if dimension = 1 then .ok .Z
  else if dimension = 2 then .ok .C
  else if dimension = 3 then .ok .T
  else if dimension = 4 then .ok .R
  else if dimension = 5 then .ok .S
  else if dimension = 6 then .ok .I
  else if dimension = 7 then .ok .H
  else if dimension = 8 then .ok .V
  else if dimension = 9 then .ok .B
  else .error (.unknownDimension dimension)

/-- The loop body of `Dimension::vec_from_bitflags` (misc.rs lines 66-77): the
first argument is the number of remaining iterations, the second the current
loop counter `i`, the third the current value of the mutable `bit_flags`.
A `none` result models the `expect` aborting on an `Err` from `try_from`. -/
def Dimension.vec_from_bitflags_loop : Nat → Int → Nat → Option (List Dimension)
  | 0, _, _ => some []
  | n + 1, i, bit_flags =>
    if bit_flags &&& 1 > 0 then
      match Dimension.try_from i with
      | .ok d => (Dimension.vec_from_bitflags_loop n (i + 1) (bit_flags >>> 1)).map (d :: ·)
      | .error _ => none
    else Dimension.vec_from_bitflags_loop n (i + 1) (bit_flags >>> 1)

/-- `Dimension::vec_from_bitflags` (misc.rs lines 66-77): iterates `i` from 1
to 9, pushing the dimension with discriminant `i` whenever the low bit of the
shifted mask is set. -/
def Dimension.vec_from_bitflags (bit_flags : Nat) : Option (List Dimension) :=
  Dimension.vec_from_bitflags_loop 9 1 bit_flags

/-- The fixed dimension order Z,C,T,R,S,I,H,V,B of the specification. -/
def dimension_order : List Dimension :=
  [.Z, .C, .T, .R, .S, .I, .H, .V, .B]

/-- The dimension list the specification prescribes for a validity bitmask:
for each k below 9 in ascending order, the k-th dimension of the fixed order
whenever bit k of the mask is set. -/
def dims_of_mask (mask : Nat) : List Dimension :=
  (List.range 9).filterMap fun k =>
    if mask.testBit k then dimension_order.get? k else none

/-! ## functions.rs: native-call traces of the writer teardown paths (C1) -/

/-- The native calls the `CziWriter` methods of functions.rs can make. -/
inductive WriterNativeCall where
  | writerClose
  | releaseWriter
deriving DecidableEq, Repr

/-- `CziWriter::close` (functions.rs lines 974-977): one call to
`libCZI_WriterClose`. -/
def CziWriter.close_trace : List WriterNativeCall :=
  [.writerClose]

/-- `CziWriter::release` (functions.rs lines 984-987): one call to
`libCZI_ReleaseWriter`. -/
def CziWriter.release_trace : List WriterNativeCall :=
  [.releaseWriter]

/-- `impl Drop for CziWriter` (functions.rs lines 990-995): the body runs
`self.close().ok()` and then `self.release().ok()`, so the drop path performs
the close trace followed by the release trace. -/
def CziWriter.drop_trace : List WriterNativeCall :=
  CziWriter.close_trace ++ CziWriter.release_trace

/-- Modelled from the spec: `libCZI_WriterClose` itself is not part of this
crate; per section 4.6 it writes the final directory segments (finalization).
A trace of writer native calls performs finalization iff it contains the
close call. -/
def writer_trace_finalizes (trace : List WriterNativeCall) : Bool :=
  trace.contains .writerClose

/-! ## functions.rs: native-call traces of the bitmap lock discipline (C2) -/

/-- The native calls the bitmap-related code of functions.rs can make. -/
inductive BitmapNativeCall where
  | bitmapLock
  | bitmapUnlock
  | releaseBitmap
deriving DecidableEq, Repr

/-- `Bitmap::lock` (functions.rs lines 564-573): one call to
`libCZI_BitmapLock`; on success the bitmap is moved into the returned
`LockedBitmap`. -/
def Bitmap.lock_trace : List BitmapNativeCall :=
  [.bitmapLock]

/-- `impl Drop for Bitmap` (functions.rs lines 595-599): one call to
`libCZI_ReleaseBitmap` (via `Bitmap::release`). -/
def Bitmap.drop_trace : List BitmapNativeCall :=
  [.releaseBitmap]

/-- `impl Drop for LockedBitmap` (functions.rs lines 615-619) as Rust runs it:
the `drop` body makes one call to `libCZI_BitmapUnlock`, after which the
`bitmap: Bitmap` field is dropped, running `impl Drop for Bitmap`. -/
def LockedBitmap.drop_trace : List BitmapNativeCall :=
  [.bitmapUnlock] ++ Bitmap.drop_trace

/-- `LockedBitmap::unlock` (functions.rs lines 627-630) as Rust runs it: the
body makes one explicit call to `libCZI_BitmapUnlock` and returns
`self.bitmap.clone()`; since `unlock` takes `self` by value, `LockedBitmap`
implements `Drop`, and the body never forgets `self`, `self` is dropped when
the body ends, running `impl Drop for LockedBitmap` on top. -/
def LockedBitmap.unlock_trace : List BitmapNativeCall :=
  [.bitmapUnlock] ++ LockedBitmap.drop_trace

/-- Scenario: a successful `Bitmap::lock` whose `LockedBitmap` is dropped
without an explicit unlock. -/
def lock_then_drop_trace : List BitmapNativeCall :=
  Bitmap.lock_trace ++ LockedBitmap.drop_trace

/-- Scenario: a successful `Bitmap::lock` followed by an explicit
`LockedBitmap::unlock`. -/
def lock_then_unlock_trace : List BitmapNativeCall :=
  Bitmap.lock_trace ++ LockedBitmap.unlock_trace

/-! ## functions.rs: raw-data retrieval into a capacity-only Vec (C9) -/

/-- The `RawDataType` enum of misc.rs. -/
inductive RawDataType where
  | Data
  | Metadata
deriving DecidableEq, Repr

/-- A Rust `Vec<u8>` as the source manipulates it: a length, a capacity, and
the bytes stored in the backing allocation. -/
structure RustVec where
  len : Nat
  cap : Nat
  buffer : List Nat
deriving DecidableEq, Repr

/-- `Vec::with_capacity(n)`: length 0, capacity `n`, uninitialised backing
allocation (written as zeros). -/
def RustVec.with_capacity (n : Nat) : RustVec :=
  { len := 0, cap := n, buffer := List.replicate n 0 }

/-- The caller-visible contents of a `Vec`: its first `len` elements. -/
def RustVec.as_slice (v : RustVec) : List Nat :=
  v.buffer.take v.len

/-- A write through `as_mut_ptr()` into the backing allocation: at most `cap`
bytes are stored, and the length field is not touched. -/
def RustVec.write_through_ptr (v : RustVec) (bytes : List Nat) : RustVec :=
  { len := v.len, cap := v.cap,
    buffer := bytes.take v.cap ++ v.buffer.drop (bytes.take v.cap).length }

/-- What the native side contributes to one `libCZI_SubBlockGetRawData` /
`libCZI_AttachmentGetRawData` call: the data available in the native object
for each raw-data type, and the return code. -/
structure RawDataNative where
  data_payload : List Nat
  metadata_payload : List Nat
  code : Int
deriving DecidableEq, Repr

/-- The payload the native call reads for the requested raw-data type. -/
def RawDataNative.payload (n : RawDataNative) : RawDataType → List Nat
  | .Data => n.data_payload
  | .Metadata => n.metadata_payload

/-- `SubBlock::get_raw_data` (functions.rs lines 468-475): a
`Vec::<u8>::with_capacity(size)` is created and its raw pointer passed to
`libCZI_SubBlockGetRawData` together with a boxed copy of `size`; the native
call copies at most `size` bytes into the buffer's capacity and stores the
actual data size into the box; the vector's length is never set, and on
success the pair (actual size, vector) is returned. -/
def SubBlock.get_raw_data (tp : RawDataType) (native : RawDataNative) (size : Int) :
    Except AnyhowError (Int × RustVec) :=
  let data := RustVec.with_capacity size.toNat
  let data := data.write_through_ptr ((native.payload tp).take size.toNat)
  match LibCZIApiError.try_from native.code with
  | .error e => .error e
  | .ok _ => .ok (((native.payload tp).length : Int), data)

/-- `Attachment::get_raw_data` (functions.rs lines 515-522): same shape as
`SubBlock::get_raw_data` but without a type selector; the attachment's raw
payload is the data payload. -/
def Attachment.get_raw_data (native : RawDataNative) (size : Int) :
    Except AnyhowError (Int × RustVec) :=
  let data := RustVec.with_capacity size.toNat
  let data := data.write_through_ptr (native.data_payload.take size.toNat)
  match LibCZIApiError.try_from native.code with
  | .error e => .error e
  | .ok _ => .ok ((native.data_payload.length : Int), data)

/-! ## functions.rs: allocate_memory (C10) -/

/-- The two locals of `allocate_memory`: the storage of the
`MaybeUninit::<T>::uninit()` value `data` (none models uninitialised) and the
local pointer variable `ptr`. -/
structure AllocLocals where
  dataCell : Option Int
  ptrCell : Int
deriving DecidableEq, Repr

/-- Final state and return value of one `allocate_memory` run. -/
structure AllocResult where
  locals : AllocLocals
  ret : Except AnyhowError (Option Int)
deriving Repr

/-- `allocate_memory` (functions.rs lines 25-30): `data` is created
uninitialised; the local `ptr` is initialised to `data.as_mut_ptr()` (the
address `dataAddr` of data's storage); the native allocator is passed
`&mut ptr`, so it writes the allocated pointer `allocatedPtr` over the local
`ptr` and never into data's storage; after decoding the return code, `data`
itself is returned. -/
def allocate_memory (dataAddr allocatedPtr code : Int) : AllocResult :=
  let data : Option Int := none
  let ptr : Int := dataAddr
  let ptr : Int := allocatedPtr
  match LibCZIApiError.try_from code with
  | .error e => { locals := { dataCell := data, ptrCell := ptr }, ret := .error e }
  | .ok _ => { locals := { dataCell := data, ptrCell := ptr }, ret := .ok data }

/-! ## Native sub-block directory lookup (C4), modelled from the spec -/

/-- The distinguished sentinel handle value denoting no object at the API
boundary (spec section 3, Handle). -/
def kInvalidObjectHandle : Nat := 0

/-- Modelled from the spec: the native sub-block directory behind
`libCZI_ReaderReadSubBlock` and `libCZI_TryGetSubBlockInfoForIndex` is not
part of this crate. Per sections 4.2 and 3 it is an ordered sequence of
present entries indexed by position 0..count, together with a declared
maximum valid index. -/
structure SubBlockDirectory where
  entries : List Nat
  maxValidIndex : Int

/-- Modelled from the spec (sections 4.2 and 8): the native directory lookup
returns the IndexOutOfRange code for an index beyond the declared maximum
valid index, success with the no-object sentinel for an in-range index with
no entry present, and success with the entry's handle otherwise. The result
is the pair (return code, output handle). -/
def SubBlockDirectory.native_lookup (dir : SubBlockDirectory) (index : Int) : Int × Nat :=
  if index < 0 ∨ dir.maxValidIndex < index then (4, kInvalidObjectHandle)
  else
    match dir.entries.get? index.toNat with
    | some h => (0, h)
    | none => (0, kInvalidObjectHandle)

/-- `CziReader::read_sub_block` (functions.rs lines 108-115): forwards to the
native lookup, decodes the return code, and on success returns the (possibly
sentinel) handle put into the output parameter. -/
def CziReader.read_sub_block (dir : SubBlockDirectory) (index : Int) :
    Except AnyhowError Nat :=
  match LibCZIApiError.try_from (dir.native_lookup index).1 with
  | .error e => .error e
  | .ok _ => .ok (dir.native_lookup index).2

/-- `CziReader::try_get_sub_block_info_for_index` (functions.rs lines
280-285): same decoding of the same native directory lookup; the handle here
stands for the info payload put into the output structure. -/
def CziReader.try_get_sub_block_info_for_index (dir : SubBlockDirectory) (index : Int) :
    Except AnyhowError Nat :=
  match LibCZIApiError.try_from (dir.native_lookup index).1 with
  | .error e => .error e
  | .ok _ => .ok (dir.native_lookup index).2

/-! ## Native extended statistics (C5), modelled from the spec -/

/-- An integer rectangle (`IntRect` of interop.rs). -/
structure RectI where
  x : Int
  y : Int
  w : Int
  h : Int
deriving DecidableEq, Repr

/-- Union (bounding box) of two rectangles. -/
def RectI.union (a b : RectI) : RectI :=
  let x := min a.x b.x
  let y := min a.y b.y
  { x := x, y := y,
    w := max (a.x + a.w) (b.x + b.w) - x,
    h := max (a.y + a.h) (b.y + b.h) - y }

/-- A directory entry as the statistics engine sees it: an optional scene
dimension value and a logical rectangle. -/
structure DirEntryS where
  scene : Option Int
  rect : RectI
deriving DecidableEq, Repr

/-- The distinct scene values present in the directory, in first-appearance
order. -/
def scene_list (entries : List DirEntryS) : List Int :=
  (entries.filterMap (·.scene)).dedup

/-- The bounding box of all entries of one scene. -/
def scene_box (entries : List DirEntryS) (s : Int) : RectI :=
  match (entries.filter fun e => decide (e.scene = some s)).map (·.rect) with
  | [] => { x := 0, y := 0, w := 0, h := 0 }
  | r :: rs => rs.foldl RectI.union r

/-- Modelled from the spec: the native extended-statistics computation behind
`libCZI_ReaderGetStatisticsEx` is not part of this crate. Per section 4.4 it
groups directory entries by scene value, producing one bounding box per
scene, truncates the per-scene array to the caller-provided capacity, and
always reports the true scene count. -/
def native_get_statistics_ex (entries : List DirEntryS) (capacity : Nat) :
    List (Int × RectI) × Nat :=
  let per_scene := (scene_list entries).map fun s => (s, scene_box entries s)
  (per_scene.take capacity, per_scene.length)

/-- `CziReader::get_statistics_ex` (functions.rs lines 151-168): boxes the
i32 capacity, calls the native function which fills the statistics and
overwrites the boxed integer with the number of per-scene bounding boxes
actually available, decodes the return code, and returns the pair
(statistics, boxed count). -/
def CziReader.get_statistics_ex (entries : List DirEntryS) (n : Int) (code : Int) :
    Except AnyhowError (List (Int × RectI) × Int) :=
  let r := native_get_statistics_ex entries n.toNat
  match LibCZIApiError.try_from code with
  | .error e => .error e
  | .ok _ => .ok (r.1, (r.2 : Int))

/-- Concrete three-entry, two-scene directory used by the C5 witness. -/
def ents_c5 : List DirEntryS :=
  [{ scene := some 0, rect := { x := 0, y := 0, w := 2, h := 2 } },
   { scene := some 1, rect := { x := 5, y := 5, w := 2, h := 2 } }]

/-! ## Native single-channel scaling tile accessor (C7, C8), modelled from
the spec -/

/-- One sub-block entry as the tile accessor sees it: the plane-coordinate
key (all non-pyramid dimensions), the M-index, the logical rectangle, and the
decoded pixel payload (a constant fill colour here). -/
structure Tile where
  coordKey : Int
  mIndex : Int
  x : Int
  y : Int
  w : Int
  h : Int
  color : Nat
deriving DecidableEq, Repr

/-- The logical rectangle of a tile. -/
def Tile.rect (t : Tile) : RectI :=
  { x := t.x, y := t.y, w := t.w, h := t.h }

/-- A document's sub-block directory as the accessor sees it: the entry at
each position, and the number of positions. -/
structure TileDoc where
  tile : Nat → Tile
  count : Nat

/-- Whether two rectangles overlap in a region of positive area. -/
def RectI.overlaps (a b : RectI) : Bool :=
  decide (max a.x b.x < min (a.x + a.w) (b.x + b.w))
    && decide (max a.y b.y < min (a.y + a.h) (b.y + b.h))

/-- Modelled from the spec (section 4.5 step 2): the directory positions of
the entries matching the requested coordinate and overlapping the region of
interest, in directory order. -/
def matching_indices (doc : TileDoc) (coordKey : Int) (roi : RectI) : List Nat :=
  (List.range doc.count).filter fun i =>
    decide ((doc.tile i).coordKey = coordKey) && RectI.overlaps (doc.tile i).rect roi

/-- Modelled from the spec (section 4.5 step 3): the painting order when
sortByM is enabled is ascending M-index, with the directory position as the
deterministic tie-break. -/
def mOrderB (doc : TileDoc) (i j : Nat) : Bool :=
  decide ((doc.tile i).mIndex < (doc.tile j).mIndex)
    || (decide ((doc.tile i).mIndex = (doc.tile j).mIndex) && decide (i ≤ j))

/-- Sorting a list of directory positions into painting order. -/
def sort_tiles_by_m (doc : TileDoc) (l : List Nat) : List Nat :=
  l.mergeSort (mOrderB doc)

/-- A decoded bitmap: its dimensions and row-major pixel values. -/
structure BitmapData where
  width : Nat
  height : Nat
  pixels : List Nat
deriving DecidableEq, Repr

/-- A fresh destination canvas initialised to the background colour. -/
def BitmapData.mk_canvas (w h : Nat) (bg : Nat) : BitmapData :=
  { width := w, height := h, pixels := List.replicate (w * h) bg }

/-- Modelled from the spec (section 4.5): `calcSize(roi, zoom)` returns
width/height equal to the roi's width/height scaled by the zoom and rounded
(round rather than truncate). -/
def calc_size_native (roi : RectI) (zoom : ℚ) : Int × Int :=
  (round ((roi.w : ℚ) * zoom), round ((roi.h : ℚ) * zoom))

/-- `SingleChannelScalingTileAccessor::calc_size` (functions.rs lines
1006-1013): forwards roi and zoom to the native size calculation and returns
the resulting IntSize. -/
def SingleChannelScalingTileAccessor.calc_size (roi : RectI) (zoom : ℚ) : Int × Int :=
  calc_size_native roi zoom

/-- Modelled from the spec (section 4.5 step 4): blitting one decoded tile
into the destination canvas; each destination pixel whose pre-image under the
zoom falls inside the tile's rectangle takes the tile's colour. The canvas
dimensions are unchanged. -/
def BitmapData.blit (dst : BitmapData) (roi : RectI) (zoom : ℚ) (t : Tile) : BitmapData :=
  { width := dst.width, height := dst.height,
    pixels := dst.pixels.mapIdx fun i p =>
      let px : Int := (i % dst.width : Nat)
      let py : Int := (i / dst.width : Nat)
      let docx : Int := roi.x + ⌊(px : ℚ) / zoom⌋
      let docy : Int := roi.y + ⌊(py : ℚ) / zoom⌋
      if t.x ≤ docx ∧ docx < t.x + t.w ∧ t.y ≤ docy ∧ docy < t.y + t.h then t.color
      else p }

/-- The fields of `AccessorOptions` (interop.rs lines 941-959) the model
needs: the background colour and the sortByM flag. -/
structure AccessorOptionsM where
  background : Nat
  sort_by_m : Bool
deriving DecidableEq, Repr

/-- Modelled from the spec (section 4.5): the native accessor-get behind
`libCZI_SingleChannelTileAccessorGet` is not part of this crate. An empty roi
or non-positive zoom is InvalidArgument; otherwise a canvas of the calcSize
dimensions is filled with the background colour and the enumerated matching
entries are painted back-to-front, sorted into ascending-M painting order
when sortByM is set. The parameter of the enumeration order (a list of
directory positions) makes the native enumeration order explicit. -/
def accessor_get_native (doc : TileDoc) (painted : List Nat) (roi : RectI) (zoom : ℚ)
    (opts : AccessorOptionsM) : Except LibCZIApiError BitmapData :=
  if roi.w ≤ 0 ∨ roi.h ≤ 0 ∨ zoom ≤ 0 then .error .InvalidArgument
  else
    let sz := calc_size_native roi zoom
    let canvas := BitmapData.mk_canvas sz.1.toNat sz.2.toNat opts.background
    let ordered := if opts.sort_by_m then sort_tiles_by_m doc painted else painted
    .ok (ordered.foldl (fun b i => b.blit roi zoom (doc.tile i)) canvas)

/-- `SingleChannelScalingTileAccessor::get` (functions.rs lines 1025-1045):
invokes the native get on the document's matching entries and decodes the
return code; on success the bitmap handle is returned. -/
def SingleChannelScalingTileAccessor.get (doc : TileDoc) (coordKey : Int) (roi : RectI)
    (zoom : ℚ) (opts : AccessorOptionsM) : Except AnyhowError BitmapData :=
  match accessor_get_native doc (matching_indices doc coordKey roi) roi zoom opts with
  | .error e => .error (.api e)
  | .ok b => .ok b

/-- Concrete two-tile document used by the C8 witness: both tiles share the
M-index, lie at coordinate key 0 and cover the unit square. -/
def doc_c8 : TileDoc :=
  { tile := fun i =>
      { coordKey := 0, mIndex := 0, x := 0, y := 0, w := 2, h := 2, color := i },
    count := 2 }

end Czi

namespace Czi

/-- C3 (counterexample): the claim says every kind of the spec's taxonomy,
CorruptData and Truncated included, is representable as a distinct error
result of the decoding; but no variant of the binding's error enum denotes
the CorruptData kind, and none denotes the Truncated kind. -/
theorem C3_no_corrupt_or_truncated_kind :
    (¬ ∃ e : LibCZIApiError, e.specKind = some SpecErrorKind.CorruptData)
    ∧ ¬ ∃ e : LibCZIApiError, e.specKind = some SpecErrorKind.Truncated := by
  decide

/-- C3 (amended): decoding a native return code succeeds exactly on code 0,
and the kinds InvalidArgument, InvalidHandle, OutOfMemory, IndexOutOfRange,
LockUnlockSemanticViolated and UnspecifiedError of the spec's taxonomy are
each representable as a distinct error result of the decoding (via codes
1, 2, 3, 4, 20 and 50); CorruptData/Truncated are not distinct kinds of the
binding's error enum. -/
theorem C3_decoding_taxonomy :
    (∀ code : Int, (LibCZIApiError.try_from code).isOk = true ↔ code = 0)
    ∧ LibCZIApiError.try_from 1 = .error (.api .InvalidArgument)
    ∧ LibCZIApiError.try_from 2 = .error (.api .InvalidHandle)
    ∧ LibCZIApiError.try_from 3 = .error (.api .OutOfMemory)
    ∧ LibCZIApiError.try_from 4 = .error (.api .IndexOutOfRange)
    ∧ LibCZIApiError.try_from 20 = .error (.api .LockUnlockSemanticViolated)
    ∧ LibCZIApiError.try_from 50 = .error (.api .UnspecifiedError)
    ∧ (∀ e : LibCZIApiError,
        e.specKind ≠ some SpecErrorKind.CorruptData
        ∧ e.specKind ≠ some SpecErrorKind.Truncated) := by
  refine ⟨?_, by rfl, by rfl, by rfl, by rfl, by rfl, by rfl, by decide⟩
  intro code
  simp only [LibCZIApiError.try_from]
  split_ifs with h0 h1 h2 h3 h4 h20 h50 <;> simp_all [Except.isOk, Except.toBool]

/-- The bitflags loop only inspects the lowest `n` bits of the mask. -/
theorem vec_from_bitflags_loop_mod (n : Nat) (i : Int) (flags : Nat) :
    Dimension.vec_from_bitflags_loop n i flags
      = Dimension.vec_from_bitflags_loop n i (flags % 2 ^ n) := by
  induction n generalizing i flags with
  | zero => rfl
  | succ n ih =>
    have hmod2 : flags % 2 ^ (n + 1) % 2 = flags % 2 := by
      apply Nat.mod_mod_of_dvd
      exact Dvd.intro_left (2 ^ n) rfl
    have hshift : (flags % 2 ^ (n + 1)) >>> 1 % 2 ^ n = flags >>> 1 % 2 ^ n := by
      have h1 : (flags % 2 ^ (n + 1)) >>> 1 = (flags % (2 * 2 ^ n)) / 2 := by
        rw [Nat.shiftRight_eq_div_pow]
        ring_nf
      rw [h1, Nat.mod_mul_right_div_self, Nat.shiftRight_eq_div_pow]
      exact Nat.mod_mod_of_dvd _ dvd_rfl
    simp only [Dimension.vec_from_bitflags_loop, Nat.and_one_is_mod, hmod2]
    rw [ih (i + 1) (flags >>> 1), ih (i + 1) ((flags % 2 ^ (n + 1)) >>> 1), hshift]

/-- The spec-side dimension list only inspects the lowest nine bits. -/
theorem dims_of_mask_mod (mask : Nat) :
    dims_of_mask mask = dims_of_mask (mask % 2 ^ 9) := by
  unfold dims_of_mask
  apply List.filterMap_congr
  intro k hk
  have hk9 : k < 9 := List.mem_range.mp hk
  have ht : (mask % 2 ^ 9).testBit k = mask.testBit k := by
    rw [Nat.testBit_mod_two_pow]
    simp [hk9]
  rw [ht]

set_option maxRecDepth 4000 in
/-- The bitflags decoding agrees with the spec-side list on every mask with
only the lowest nine bits set. -/
theorem vec_from_bitflags_small :
    ∀ m : Nat, m < 512 → Dimension.vec_from_bitflags m = some (dims_of_mask m) := by
  decide

/-- C6: for every validity bitmask, `Dimension::vec_from_bitflags` returns
(without panicking) exactly the dimensions whose bits among the lowest nine
are set, in the fixed order Z,C,T,R,S,I,H,V,B with the k-th element of the
result corresponding to the k-th set bit, and it ignores all higher bits. -/
theorem C6_vec_from_bitflags_correct (mask : Nat) :
    Dimension.vec_from_bitflags mask = some (dims_of_mask mask)
    ∧ dims_of_mask mask = dims_of_mask (mask % 2 ^ 9) := by
  refine ⟨?_, dims_of_mask_mod mask⟩
  have h1 : Dimension.vec_from_bitflags mask
      = Dimension.vec_from_bitflags (mask % 2 ^ 9) := by
    unfold Dimension.vec_from_bitflags
    exact vec_from_bitflags_loop_mod 9 1 mask
  rw [h1, dims_of_mask_mod mask]
  exact vec_from_bitflags_small (mask % 2 ^ 9) (Nat.mod_lt _ (by norm_num))

/-- C1 (counterexample): the claim says the drop path of `CziWriter` does not
call close and never performs finalization; but the drop trace contains the
native close call and therefore performs finalization. -/
theorem C1_drop_calls_close :
    CziWriter.drop_trace.contains WriterNativeCall.writerClose = true
    ∧ writer_trace_finalizes CziWriter.drop_trace = true := by
  decide

/-- C1 (amended): the drop path of a `CziWriter` that was never explicitly
closed calls native close first and native release second, so the writer is
silently finalized on the caller's behalf rather than left unfinalized. -/
theorem C1_drop_closes_then_releases :
    CziWriter.drop_trace = [WriterNativeCall.writerClose, WriterNativeCall.releaseWriter]
    ∧ writer_trace_finalizes CziWriter.drop_trace = true := by
  decide

/-- C2: lock/unlock calls to the native library balance on the implicit drop
path (one lock, one unlock), but a successful `Bitmap::lock` followed by an
explicit `LockedBitmap::unlock` issues two native unlock calls for the single
lock, because the explicit unlock in the body is followed by the `Drop`
implementation's unlock when `self` goes out of scope. -/
theorem C2_unlock_call_imbalance :
    (lock_then_drop_trace.count BitmapNativeCall.bitmapLock = 1
      ∧ lock_then_drop_trace.count BitmapNativeCall.bitmapUnlock = 1)
    ∧ (lock_then_unlock_trace.count BitmapNativeCall.bitmapLock = 1
      ∧ lock_then_unlock_trace.count BitmapNativeCall.bitmapUnlock = 2) := by
  decide

/-- C9: for every sub-block (and every attachment), every raw-data type and
every (nonnegative) requested buffer size, the byte vector returned by
`get_raw_data` has
length zero and exposes no bytes to the caller, regardless of how many bytes
the native call reports available or copies into the buffer's capacity. -/
theorem C9_raw_data_vec_always_empty (tp : RawDataType) (native : RawDataNative) (size : Int)
    (hsize : 0 ≤ size) :
    (∀ out, SubBlock.get_raw_data tp native size = .ok out →
      out.2.len = 0 ∧ out.2.as_slice = [])
    ∧ (∀ out, Attachment.get_raw_data native size = .ok out →
      out.2.len = 0 ∧ out.2.as_slice = []) := by
  constructor
  · intro out h
    simp only [SubBlock.get_raw_data] at h
    cases hc : LibCZIApiError.try_from native.code <;> rw [hc] at h
    · cases h
    · cases h
      exact ⟨rfl, rfl⟩
  · intro out h
    simp only [Attachment.get_raw_data] at h
    cases hc : LibCZIApiError.try_from native.code <;> rw [hc] at h
    · cases h
    · cases h
      exact ⟨rfl, rfl⟩

/-- C9 witness: concrete run with three available bytes and capacity two. -/
theorem C9_raw_data_vec_always_empty_witness :
    (0 : Int) ≤ 2
    ∧ SubBlock.get_raw_data RawDataType.Data
        { data_payload := [7, 7, 7], metadata_payload := [], code := 0 } 2
      = Except.ok (3, { len := 0, cap := 2, buffer := [7, 7] })
    ∧ ({ len := 0, cap := 2, buffer := [7, 7] } : RustVec).len = 0
    ∧ ({ len := 0, cap := 2, buffer := [7, 7] } : RustVec).as_slice = [] := by
  have h : SubBlock.get_raw_data RawDataType.Data
      { data_payload := [7, 7, 7], metadata_payload := [], code := 0 } 2
      = Except.ok (3, { len := 0, cap := 2, buffer := [7, 7] }) := by rfl
  have h2 := (C9_raw_data_vec_always_empty RawDataType.Data
      { data_payload := [7, 7, 7], metadata_payload := [], code := 0 } 2 (by norm_num)).1
      (3, { len := 0, cap := 2, buffer := [7, 7] }) h
  exact ⟨by norm_num, h, h2.1, h2.2⟩

/-- C10: `allocate_memory` writes the pointer produced by the native
allocation into the local variable and discards it: the returned
`MaybeUninit` is never initialised from the allocation and is independent of
the allocated block. -/
theorem C10_allocate_memory_discards_allocation (dataAddr p1 p2 code : Int) :
    (allocate_memory dataAddr p1 code).locals.ptrCell = p1
    ∧ (allocate_memory dataAddr p1 code).ret = (allocate_memory dataAddr p2 code).ret
    ∧ ∀ v, (allocate_memory dataAddr p1 code).ret = .ok v → v = none := by
  unfold allocate_memory
  cases h : LibCZIApiError.try_from code <;> simp

/-- C10 witness: concrete run with successful allocation at pointer 42. -/
theorem C10_allocate_memory_discards_allocation_witness :
    (allocate_memory 0 42 0).ret = Except.ok none
    ∧ (none : Option Int) = none :=
  ⟨by rfl, (C10_allocate_memory_discards_allocation 0 42 99 0).2.2 none (by rfl)⟩

/-- C4: for every directory whose present entries carry real (non-sentinel)
handles, a lookup through `CziReader::read_sub_block` or
`CziReader::try_get_sub_block_info_for_index` at an index beyond the last
present entry but within the declared maximum returns success carrying the
no-object sentinel; an index beyond the declared maximum valid index returns
the IndexOutOfRange error; and a present index returns success with a
non-sentinel handle, so the caller can distinguish all outcomes from the
return value. -/
theorem C4_lookup_no_object_vs_out_of_range (dir : SubBlockDirectory) (index : Int)
    (hvalid : ∀ h ∈ dir.entries, h ≠ kInvalidObjectHandle)
    (hlen : (dir.entries.length : Int) ≤ dir.maxValidIndex + 1) :
    ((dir.entries.length : Int) ≤ index → index ≤ dir.maxValidIndex →
      CziReader.read_sub_block dir index = .ok kInvalidObjectHandle
      ∧ CziReader.try_get_sub_block_info_for_index dir index = .ok kInvalidObjectHandle)
    ∧ (dir.maxValidIndex < index →
      CziReader.read_sub_block dir index = .error (.api .IndexOutOfRange)
      ∧ CziReader.try_get_sub_block_info_for_index dir index
          = .error (.api .IndexOutOfRange))
    ∧ (0 ≤ index → index < (dir.entries.length : Int) →
      ∃ h, CziReader.read_sub_block dir index = .ok h ∧ h ≠ kInvalidObjectHandle) := by
  refine ⟨?_, ?_, ?_⟩
  · intro hlo hhi
    have hneg : ¬ (index < 0 ∨ dir.maxValidIndex < index) := by
      push_neg
      constructor
      · omega
      · exact hhi
    have hnone : dir.entries.get? index.toNat = none := by
      rw [List.get?_eq_none]
      omega
    have hl : dir.native_lookup index = (0, kInvalidObjectHandle) := by
      unfold SubBlockDirectory.native_lookup
      rw [if_neg hneg, hnone]
    constructor
    · unfold CziReader.read_sub_block
      rw [hl]
      rfl
    · unfold CziReader.try_get_sub_block_info_for_index
      rw [hl]
      rfl

  · intro hhi
    have hl : dir.native_lookup index = (4, kInvalidObjectHandle) := by
      unfold SubBlockDirectory.native_lookup
      rw [if_pos (Or.inr hhi)]
    constructor
    · unfold CziReader.read_sub_block
      rw [hl]
      rfl
    · unfold CziReader.try_get_sub_block_info_for_index
      rw [hl]
      rfl

  · intro hlo hhi
    have hneg : ¬ (index < 0 ∨ dir.maxValidIndex < index) := by
      push_neg
      omega
    have hlt : index.toNat < dir.entries.length := by omega
    have hsome : dir.entries.get? index.toNat
        = some (dir.entries.get ⟨index.toNat, hlt⟩) := List.get?_eq_get hlt
    have hl : dir.native_lookup index = (0, dir.entries.get ⟨index.toNat, hlt⟩) := by
      unfold SubBlockDirectory.native_lookup
      rw [if_neg hneg, hsome]
    refine ⟨dir.entries.get ⟨index.toNat, hlt⟩, ?_, ?_⟩
    · unfold CziReader.read_sub_block
      rw [hl]
      rfl
    · exact hvalid _ (dir.entries.get_mem _ _)

/-- C4 witness: a directory with two present entries (handles 5 and 6) and
declared maximum valid index 9; index 3 is beyond the last present entry but
within range, index 12 is beyond the declared maximum, index 1 is present. -/
theorem C4_lookup_no_object_vs_out_of_range_witness :
    CziReader.read_sub_block { entries := [5, 6], maxValidIndex := 9 } 3
      = Except.ok kInvalidObjectHandle
    ∧ CziReader.try_get_sub_block_info_for_index { entries := [5, 6], maxValidIndex := 9 } 3
      = Except.ok kInvalidObjectHandle
    ∧ CziReader.read_sub_block { entries := [5, 6], maxValidIndex := 9 } 12
      = Except.error (.api .IndexOutOfRange)
    ∧ ∃ h, CziReader.read_sub_block { entries := [5, 6], maxValidIndex := 9 } 1
        = Except.ok h ∧ h ≠ kInvalidObjectHandle := by
  have hvalid : ∀ h ∈ [5, 6], h ≠ kInvalidObjectHandle := by decide
  have h3 := C4_lookup_no_object_vs_out_of_range
    { entries := [5, 6], maxValidIndex := 9 } 3 hvalid (by norm_num)
  have h12 := C4_lookup_no_object_vs_out_of_range
    { entries := [5, 6], maxValidIndex := 9 } 12 hvalid (by norm_num)
  have h1 := C4_lookup_no_object_vs_out_of_range
    { entries := [5, 6], maxValidIndex := 9 } 1 hvalid (by norm_num)
  refine ⟨(h3.1 (by norm_num) (by norm_num)).1, (h3.1 (by norm_num) (by norm_num)).2,
    (h12.2.1 (by norm_num)).1, h1.2.2 (by norm_num) (by norm_num)⟩

/-- C5: for every open directory and every requested per-scene capacity
n >= 0, `CziReader::get_statistics_ex` returns as its second result the true
number of per-scene bounding boxes available (never clamped to the
capacity), while populating exactly min(n, true count) per-scene entries; in
particular capacity 0 still returns the true scene count with zero entries
populated. -/
theorem C5_statistics_ex_true_count (entries : List DirEntryS) (n : Int) (hn : 0 ≤ n) :
    ∀ out, CziReader.get_statistics_ex entries n 0 = .ok out →
      out.2 = ((scene_list entries).length : Int)
      ∧ out.1.length = min n.toNat (scene_list entries).length
      ∧ (n = 0 → out.1 = []) := by
  intro out h
  simp only [CziReader.get_statistics_ex, native_get_statistics_ex,
    LibCZIApiError.try_from, if_pos rfl] at h
  cases h
  refine ⟨by simp, by simp, ?_⟩
  intro h0
  subst h0
  simp

/-- Blitting a tile never changes the canvas dimensions; hence neither does
any fold of blits. -/
theorem foldl_blit_dims (doc : TileDoc) (roi : RectI) (zoom : ℚ) (l : List Nat) :
    ∀ b : BitmapData,
      (l.foldl (fun acc i => acc.blit roi zoom (doc.tile i)) b).width = b.width
      ∧ (l.foldl (fun acc i => acc.blit roi zoom (doc.tile i)) b).height = b.height := by
  induction l with
  | nil => intro b; exact ⟨rfl, rfl⟩
  | cons x xs ih =>
    intro b
    rw [List.foldl_cons]
    exact ⟨(ih _).1.trans rfl, (ih _).2.trans rfl⟩

/-- Whenever the native accessor-get succeeds, the bitmap's dimensions are
the calcSize dimensions. -/
theorem accessor_get_native_dims (doc : TileDoc) (painted : List Nat) (roi : RectI)
    (zoom : ℚ) (opts : AccessorOptionsM) (b : BitmapData)
    (hn : accessor_get_native doc painted roi zoom opts = .ok b) :
    (b.width : Int) = (calc_size_native roi zoom).1
    ∧ (b.height : Int) = (calc_size_native roi zoom).2 := by
  unfold accessor_get_native at hn
  by_cases hguard : roi.w ≤ 0 ∨ roi.h ≤ 0 ∨ zoom ≤ 0
  · rw [if_pos hguard] at hn
    cases hn
  · rw [if_neg hguard] at hn
    push_neg at hguard
    obtain ⟨hw, hh, hz⟩ := hguard
    simp only [Except.ok.injEq] at hn
    subst hn
    have hfold := foldl_blit_dims doc roi zoom
      (if opts.sort_by_m then sort_tiles_by_m doc painted else painted)
      (BitmapData.mk_canvas (calc_size_native roi zoom).1.toNat
        (calc_size_native roi zoom).2.toNat opts.background)
    have hr1 : 0 ≤ (calc_size_native roi zoom).1 := by
      show 0 ≤ round ((roi.w : ℚ) * zoom)
      rw [round_eq, Int.floor_nonneg]
      have hx : (0 : ℚ) < (roi.w : ℚ) * zoom := mul_pos (by exact_mod_cast hw) hz
      linarith
    have hr2 : 0 ≤ (calc_size_native roi zoom).2 := by
      show 0 ≤ round ((roi.h : ℚ) * zoom)
      rw [round_eq, Int.floor_nonneg]
      have hx : (0 : ℚ) < (roi.h : ℚ) * zoom := mul_pos (by exact_mod_cast hh) hz
      linarith
    constructor
    · rw [hfold.1]
      exact Int.toNat_of_nonneg hr1
    · rw [hfold.2]
      exact Int.toNat_of_nonneg hr2

/-- C7: whenever `SingleChannelScalingTileAccessor::get` succeeds for a roi
and zoom, the returned bitmap's width and height are exactly the IntSize
returned by `SingleChannelScalingTileAccessor::calc_size` for the same roi
and zoom. -/
theorem C7_get_size_matches_calc_size (doc : TileDoc) (coordKey : Int) (roi : RectI)
    (zoom : ℚ) (opts : AccessorOptionsM) (bmp : BitmapData)
    (hg : SingleChannelScalingTileAccessor.get doc coordKey roi zoom opts = .ok bmp) :
    (bmp.width : Int) = (SingleChannelScalingTileAccessor.calc_size roi zoom).1
    ∧ (bmp.height : Int) = (SingleChannelScalingTileAccessor.calc_size roi zoom).2 := by
  unfold SingleChannelScalingTileAccessor.get at hg
  cases hn : accessor_get_native doc (matching_indices doc coordKey roi) roi zoom opts with
  | error e => rw [hn] at hg; simp at hg
  | ok b =>
    rw [hn] at hg
    simp only [Except.ok.injEq] at hg
    subst hg
    exact accessor_get_native_dims doc _ roi zoom opts _ hn

/-- Concrete empty document used by the C7 witness. -/
def doc_c7 : TileDoc :=
  { tile := fun _ =>
      { coordKey := 0, mIndex := 0, x := 0, y := 0, w := 0, h := 0, color := 0 },
    count := 0 }

/-- C7 witness: an empty document, a 2 by 1 roi and zoom 1; get returns the
background canvas and its dimensions equal the calc_size result (2, 1). -/
theorem C7_get_size_matches_calc_size_witness :
    SingleChannelScalingTileAccessor.get doc_c7 0 { x := 0, y := 0, w := 2, h := 1 } 1
        { background := 0, sort_by_m := false }
      = Except.ok { width := 2, height := 1, pixels := [0, 0] }
    ∧ (({ width := 2, height := 1, pixels := [0, 0] } : BitmapData).width : Int)
        = (SingleChannelScalingTileAccessor.calc_size { x := 0, y := 0, w := 2, h := 1 } 1).1
    ∧ (({ width := 2, height := 1, pixels := [0, 0] } : BitmapData).height : Int)
        = (SingleChannelScalingTileAccessor.calc_size { x := 0, y := 0, w := 2, h := 1 } 1).2 := by
  have h : SingleChannelScalingTileAccessor.get doc_c7 0
      { x := 0, y := 0, w := 2, h := 1 } 1 { background := 0, sort_by_m := false }
      = Except.ok { width := 2, height := 1, pixels := [0, 0] } := by
    simp only [SingleChannelScalingTileAccessor.get, accessor_get_native, matching_indices,
      doc_c7, BitmapData.mk_canvas, calc_size_native]
    norm_num [List.replicate]
    rfl
  have h2 := C7_get_size_matches_calc_size doc_c7 0 { x := 0, y := 0, w := 2, h := 1 } 1
    { background := 0, sort_by_m := false } { width := 2, height := 1, pixels := [0, 0] } h
  exact ⟨h, h2.1, h2.2⟩

/-- The painting order is transitive. -/
theorem mOrderB_trans (doc : TileDoc) (a b c : Nat) :
    mOrderB doc a b → mOrderB doc b c → mOrderB doc a c := by
  simp only [mOrderB, Bool.or_eq_true, Bool.and_eq_true, decide_eq_true_eq]
  omega

/-- The painting order is total. -/
theorem mOrderB_total (doc : TileDoc) (a b : Nat) :
    mOrderB doc a b || mOrderB doc b a := by
  simp only [mOrderB, Bool.or_eq_true, Bool.and_eq_true, decide_eq_true_eq]
  omega

/-- The painting order is antisymmetric: directory positions are unique. -/
theorem mOrderB_antisymm (doc : TileDoc) (a b : Nat) :
    mOrderB doc a b = true → mOrderB doc b a = true → a = b := by
  simp only [mOrderB, Bool.or_eq_true, Bool.and_eq_true, decide_eq_true_eq]
  omega

/-- Sorting into painting order sends any two permutations of the same
multiset of directory positions to the same list. -/
theorem sort_tiles_by_m_eq_of_perm (doc : TileDoc) (l1 l2 : List Nat) (hp : l1.Perm l2) :
    sort_tiles_by_m doc l1 = sort_tiles_by_m doc l2 := by
  haveI : IsAntisymm Nat (fun a b => mOrderB doc a b = true) := ⟨mOrderB_antisymm doc⟩
  have hs1 : List.Sorted (fun a b => mOrderB doc a b = true) (l1.mergeSort (mOrderB doc)) :=
    List.sorted_mergeSort (mOrderB_trans doc) (mOrderB_total doc) l1
  have hs2 : List.Sorted (fun a b => mOrderB doc a b = true) (l2.mergeSort (mOrderB doc)) :=
    List.sorted_mergeSort (mOrderB_trans doc) (mOrderB_total doc) l2
  have hperm : (l1.mergeSort (mOrderB doc)).Perm (l2.mergeSort (mOrderB doc)) :=
    ((List.mergeSort_perm l1 _).trans hp).trans (List.mergeSort_perm l2 _).symm
  unfold sort_tiles_by_m
  exact List.eq_of_perm_of_sorted hperm hs1 hs2

/-- C8: with sortByM enabled, the accessor's output bitmap is byte-identical
across calls with the same document, coordinate, roi, zoom and options, no
matter in which order the native side enumerates the matching entries: any
two enumerations that are permutations of the matching set paint the same
bitmap. -/
theorem C8_get_deterministic_with_sort_by_m (doc : TileDoc) (coordKey : Int) (roi : RectI)
    (zoom : ℚ) (opts : AccessorOptionsM) (hsort : opts.sort_by_m = true)
    (painted1 painted2 : List Nat)
    (h1 : painted1.Perm (matching_indices doc coordKey roi))
    (h2 : painted2.Perm (matching_indices doc coordKey roi)) :
    accessor_get_native doc painted1 roi zoom opts
      = accessor_get_native doc painted2 roi zoom opts := by
  have hord : sort_tiles_by_m doc painted1 = sort_tiles_by_m doc painted2 :=
    sort_tiles_by_m_eq_of_perm doc painted1 painted2 (h1.trans h2.symm)
  unfold accessor_get_native
  rw [hsort]
  simp only [if_true]
  rw [hord]

/-- C8 witness: the two-tile document, the two possible enumeration orders of
its matching entries, and zoom 1 give identical bitmaps. -/
theorem C8_get_deterministic_with_sort_by_m_witness :
    ({ background := 0, sort_by_m := true } : AccessorOptionsM).sort_by_m = true
    ∧ List.Perm [1, 0] (matching_indices doc_c8 0 { x := 0, y := 0, w := 2, h := 2 })
    ∧ List.Perm [0, 1] (matching_indices doc_c8 0 { x := 0, y := 0, w := 2, h := 2 })
    ∧ accessor_get_native doc_c8 [1, 0] { x := 0, y := 0, w := 2, h := 2 } 1
        { background := 0, sort_by_m := true }
      = accessor_get_native doc_c8 [0, 1] { x := 0, y := 0, w := 2, h := 2 } 1
        { background := 0, sort_by_m := true } :=
  ⟨rfl, by decide, by decide,
    C8_get_deterministic_with_sort_by_m doc_c8 0 { x := 0, y := 0, w := 2, h := 2 } 1
      { background := 0, sort_by_m := true } rfl [1, 0] [0, 1] (by decide) (by decide)⟩

/-- C5 witness: two scenes, capacity 0: the true count 2 is reported and no
per-scene entry is populated. -/
theorem C5_statistics_ex_true_count_witness :
    (0 : Int) ≤ 0
    ∧ (2 : Int) = ((scene_list ents_c5).length : Int)
    ∧ List.length ([] : List (Int × RectI)) = min (Int.toNat 0) (scene_list ents_c5).length
    ∧ ([] : List (Int × RectI)) = [] := by
  have h := C5_statistics_ex_true_count ents_c5 0 (le_refl 0) ([], 2) (by rfl)
  exact ⟨le_refl 0, h.1, h.2.1, h.2.2 rfl⟩

end Czi
